import Mathlib

/-!
Verification of the extraction-and-reconciliation core of
`update_euromillions.py` (EuroMillions draw fetcher).

The Python values flowing through the script are JSON-like; they are
embedded as the inductive type `Json` below.  Python floats are modelled
as exact unreduced fractions (`PyFloat`); the script only multiplies,
rounds and truncates amounts that are far below the magnitudes at which
binary floating point would diverge from exact rational arithmetic.
Python `round` is round-half-to-even, modelled by `pyRound`.
-/

/-- An exact fraction standing in for a Python float.  The denominator is
positive for every value constructed in this development (1 or a power of
ten). -/
structure PyFloat where
  num : Int
  den : Nat
deriving DecidableEq

/-- Negation of a fraction (the leading minus sign of a float literal). -/
def PyFloat.neg (q : PyFloat) : PyFloat := ⟨-q.num, q.den⟩

/-- Multiplication by an integer (the unit multiplier of the banner
parse). -/
def PyFloat.mulInt (q : PyFloat) (m : Int) : PyFloat := ⟨q.num * m, q.den⟩

/-- JSON-like values as delivered by `requests.Response.json`.  Python keeps
`bool`, `int` and `float` distinct (and `isinstance` checks in the script
distinguish them), hence the separate constructors.  Objects are ordered
association lists, mirroring the insertion order of Python dicts. -/
inductive Json where
  | null : Json
  | bool (b : Bool) : Json
  | int (n : Int) : Json
  | float (q : PyFloat) : Json
  | str (s : String) : Json
  | arr (xs : List Json) : Json
  | obj (kvs : List (String × Json)) : Json

/-- Python truthiness (`bool(x)`) for JSON-like values. -/
def pyTruthy : Json → Bool
  | Json.null => false
  | Json.bool b => b
  | Json.int n => n != 0
  | Json.float q => q.num != 0
  | Json.str s => s != ""
  | Json.arr xs => !xs.isEmpty
  | Json.obj kvs => !kvs.isEmpty

/-- The Python expression `a or b`: `a` when truthy, else `b`. -/
def pyOr (a b : Json) : Json := if pyTruthy a then a else b

/-- `d.get(k)` on a dict, with Python returning `None` for a missing key. -/
def dget (kvs : List (String × Json)) (k : String) : Json :=
  match kvs.find? (fun kv => kv.1 == k) with
  | some kv => kv.2
  | none => Json.null

/-- `k in d` on a dict. -/
def dhas (kvs : List (String × Json)) (k : String) : Bool :=
  (kvs.find? (fun kv => kv.1 == k)).isSome

/-- Python `round` on an exact fraction: round half to even.  `f` is the
floor and `rem2` twice the remainder, compared against the denominator to
detect the half-way tie. -/
def pyRound (q : PyFloat) : Int :=
  let d : Int := (q.den : Int)
  let f : Int := q.num.fdiv d
  let rem2 : Int := 2 * (q.num - f * d)
  if rem2 < d then f
  else if d < rem2 then f + 1
  else if f % 2 = 0 then f else f + 1

/-- Python `int(..)` on a float value: truncation toward zero. -/
def ratTrunc (q : PyFloat) : Int :=
  q.num.tdiv (q.den : Int)

/-- Numeric value of a list of decimal digit characters. -/
def digitsToNat (ds : List Char) : Nat :=
  ds.foldl (fun a c => a * 10 + (c.toNat - 48)) 0

/-- Whitespace for Python `\s` and `str.strip` (ASCII subset). -/
def isPySpace (c : Char) : Bool :=
  c = ' ' ∨ c = '\t' ∨ c = '\n' ∨ c = '\r' ∨ c = '\x0c' ∨ c = '\x0b'

/-- `str.strip()` on a character list. -/
def pyStrip (l : List Char) : List Char :=
  ((l.dropWhile isPySpace).reverse.dropWhile isPySpace).reverse

/-- Python `int(s)` on a string: optional surrounding whitespace, optional
sign, then decimal digits.  (Digit-group underscores, accepted by CPython,
are not modelled; no input in this development contains them.) -/
def pyIntStr (s : List Char) : Option Int :=
  let t := pyStrip s
  let core : List Char → Option Int := fun ds =>
    if ds ≠ [] ∧ ds.all Char.isDigit then some (digitsToNat ds : Int) else none
  match t with
  | '+' :: rest => core rest
  | '-' :: rest => (core rest).map (fun n => -n)
  | rest => core rest

/-- Python `float(s)` on a string: optional surrounding whitespace, optional
sign, digits with at most one decimal point (at least one digit overall).
Exponent, `inf` and `nan` forms are not modelled; no input here uses them. -/
def pyFloatStr (s : List Char) : Option PyFloat :=
  let t := pyStrip s
  let core : List Char → Option PyFloat := fun ds =>
    let ip := ds.takeWhile Char.isDigit
    let rest := ds.dropWhile Char.isDigit
    match rest with
    | [] => if ip = [] then none else some ⟨(digitsToNat ip : Int), 1⟩
    | '.' :: fp =>
      if fp.all Char.isDigit ∧ (ip ≠ [] ∨ fp ≠ []) then
        some ⟨((digitsToNat ip * 10 ^ fp.length + digitsToNat fp : Nat) : Int), 10 ^ fp.length⟩
      else none
    | _ => none
  match t with
  | '+' :: rest => core rest
  | '-' :: rest => (core rest).map PyFloat.neg
  | rest => core rest

/-- First match of the regex `\d+(?:[.,]\d+)?` in a character list
(`re.findall(...)[0]` in `_parse_euro_to_int`). -/
def grabNum (l : List Char) : List Char :=
  let ds := l.takeWhile Char.isDigit
  let rest := l.dropWhile Char.isDigit
  match rest with
  | s :: r2 =>
    if s = '.' ∨ s = ',' then
      let ds2 := r2.takeWhile Char.isDigit
      if ds2 = [] then ds else ds ++ s :: ds2
    else ds
  | [] => ds

/-- Scan for the first position where `\d+(?:[.,]\d+)?` matches. -/
def findFirstNum : List Char → Option (List Char)
  | [] => none
  | c :: cs => if c.isDigit then some (grabNum (c :: cs)) else findFirstNum cs

/-- Exact value of a matched number `\d+(?:[.,]\d+)?` (comma and dot both
act as the decimal separator for `float`, commas having been removed
upstream before this is evaluated on actual inputs). -/
def ratOfNumChars (l : List Char) : PyFloat :=
  let ip := l.takeWhile Char.isDigit
  let rest := l.dropWhile Char.isDigit
  match rest with
  | _sep :: fp =>
    ⟨((digitsToNat ip * 10 ^ fp.length + digitsToNat fp : Nat) : Int), 10 ^ fp.length⟩
  | [] => ⟨(digitsToNat ip : Int), 1⟩

/-- `_parse_euro_to_int` (src/update_euromillions.py lines 96-109):
coerce numbers or strings like `€26,800,624` or `26800624.3` to int euros.
`bool` is explicitly excluded by the `isinstance` guard; for a string, all
commas are removed and the first `\d+(?:[.,]\d+)?` match is parsed as a
float and rounded. -/
def parse_euro_to_int : Json → Option Int
  | Json.int n => some n
  | Json.float q => some (pyRound q)
  | Json.str s =>
    let cleaned := s.data.filter (fun c => c ≠ ',')
    match findFirstNum cleaned with
    | some num => some (pyRound (ratOfNumChars num))
    | none => none
  | _ => none

/-- Python `str(x)` for JSON-like values.  The script only observes two
facts about the representation of non-string values: it is never empty,
and the representation of a container never parses as an int (it starts
with a bracket).  The container representations are therefore abbreviated
rather than rendered recursively, and a non-integral float is shown as a
fraction rather than in decimal. -/
def pyStr : Json → String
  | Json.null => "None"
  | Json.bool b => if b then "True" else "False"
  | Json.int n => toString n
  | Json.float q =>
    if q.den = 1 then toString q.num ++ ".0"
    else toString q.num ++ "/" ++ toString q.den
  | Json.str s => s
  | Json.arr _ => "[...]"
  | Json.obj _ => "\x7b...\x7d"

/-- Python `int(x)` on a JSON-like value: ints pass through, floats
truncate toward zero, bools become 0 or 1, strings go through the strict
integer grammar, everything else raises (here: `none`). -/
def pyInt : Json → Option Int
  | Json.int n => some n
  | Json.float q => some (ratTrunc q)
  | Json.bool b => some (if b then 1 else 0)
  | Json.str s => pyIntStr s.data
  | _ => none

/-- Python `float(x)` on a JSON-like value (raises = `none`). -/
def pyFloatJson : Json → Option PyFloat
  | Json.int n => some ⟨n, 1⟩
  | Json.float q => some q
  | Json.bool b => some ⟨if b then 1 else 0, 1⟩
  | Json.str s => pyFloatStr s.data
  | _ => none

/-- `_to_int_maybe` (lines 129-136): `int(x)`, falling back to
`int(float(x))`, else `None`. -/
def to_int_maybe (x : Json) : Option Int :=
  match pyInt x with
  | some n => some n
  | none =>
    match pyFloatJson x with
    | some q => some (ratTrunc q)
    | none => none

/-- `re.findall(r"\d{1,2}", ..)` followed by `int`: greedy non-overlapping
one-or-two-digit runs, so `"123"` yields `[12, 3]`. -/
def findall_d12 : List Char → List Nat
  | [] => []
  | c :: cs =>
    if c.isDigit then
      match cs with
      | d :: ds =>
        if d.isDigit then digitsToNat [c, d] :: findall_d12 ds
        else digitsToNat [c] :: findall_d12 (d :: ds)
      | [] => [digitsToNat [c]]
    else findall_d12 cs

/-- `_as_numbers_list` (lines 112-126): a native list is coerced
element-wise via `int(x)` with an `int(str(x).strip())` fallback,
non-coercible elements silently dropped; a string yields every
`\d{1,2}` match; anything else yields `[]`. -/
def as_numbers_list : Json → List Int
  | Json.arr xs =>
    xs.foldl
      (fun acc x =>
        match pyInt x with
        | some n => acc ++ [n]
        | none =>
          match pyIntStr (pyStrip (pyStr x).data) with
          | some n => acc ++ [n]
          | none => acc)
      []
  | Json.str s => (findall_d12 s.data).map (fun n => (n : Int))
  | _ => []

/-- A dict is a prize tier candidate when it carries a prize-like key
alongside `matched_numbers` or `matched_stars` (lines 150-152). -/
def tierPred (kvs : List (String × Json)) : Bool :=
  (dhas kvs "prize" || dhas kvs "amount" || dhas kvs "jackpot") &&
    (dhas kvs "matched_numbers" || dhas kvs "matched_stars")

mutual

/-- The `recurse` walk of `_extract_jackpot_from_tiers` (lines 148-159):
collect tier dicts in document order, a dict before its own values,
values in insertion order. -/
def collectTiers : Json → List (List (String × Json))
  | Json.obj kvs => (if tierPred kvs then [kvs] else []) ++ collectTiersKVs kvs
  | Json.arr xs => collectTiersArr xs
  | _ => []

def collectTiersArr : List Json → List (List (String × Json))
  | [] => []
  | x :: xs => collectTiers x ++ collectTiersArr xs

def collectTiersKVs : List (String × Json) → List (List (String × Json))
  | [] => []
  | (_, v) :: kvs => collectTiers v ++ collectTiersKVs kvs

end

/-- `t.get("prize") or t.get("amount") or t.get("jackpot")` (line 165). -/
def tierPrizeVal (t : List (String × Json)) : Json :=
  pyOr (dget t "prize") (pyOr (dget t "amount") (dget t "jackpot"))

/-- Parsed prize amount of a tier dict. -/
def tierPrize (t : List (String × Json)) : Option Int :=
  parse_euro_to_int (tierPrizeVal t)

/-- `mn == 5 and ms == 2` (line 164): the top EuroMillions prize tier,
five matched main numbers and two matched stars. -/
def isFullMatch (t : List (String × Json)) : Bool :=
  to_int_maybe (dget t "matched_numbers") == some 5 &&
    to_int_maybe (dget t "matched_stars") == some 2

/-- One step of the `best` accumulation (lines 169-173): keep the
strictly larger parsed prize. -/
def bestPrizeStep (best : Option Int) (t : List (String × Json)) : Option Int :=
  match tierPrize t with
  | some p =>
    match best with
    | none => some p
    | some b => if b < p then some p else some b
  | none => best

/-- `_extract_jackpot_from_tiers` (lines 139-174): prefer the first
collected 5+2 tier whose prize parses; else the maximum parsed prize
across all collected tiers. -/
def extract_jackpot_from_tiers (raw : Json) : Option Int :=
  match (collectTiers raw).find? (fun t => isFullMatch t && (tierPrize t).isSome) with
  | some t => tierPrize t
  | none => (collectTiers raw).foldl bestPrizeStep none

/-- `extract_jackpot_eur` (lines 177-184): try the top-level keys
`jackpot`, `prize`, `jackpot_eur` through the amount parser, then fall
back to the tier search. -/
def extract_jackpot_eur (raw : List (String × Json)) : Option Int :=
  match parse_euro_to_int (dget raw "jackpot") with
  | some j => some j
  | none =>
    match parse_euro_to_int (dget raw "prize") with
    | some j => some j
    | none =>
      match parse_euro_to_int (dget raw "jackpot_eur") with
      | some j => some j
      | none => extract_jackpot_from_tiers (Json.obj raw)

/-- `re.match(r"^(\d{4})-(\d{2})-(\d{2})", ..)` (line 192): an anchored
prefix match, with the reassembled `YYYY-MM-DD` text on success.  No
calendar validation happens on this path. -/
def isoPrefixMatch (l : List Char) : Option String :=
  match l with
  | y1 :: y2 :: y3 :: y4 :: '-' :: m1 :: m2 :: '-' :: d1 :: d2 :: _ =>
    if y1.isDigit && y2.isDigit && y3.isDigit && y4.isDigit &&
        m1.isDigit && m2.isDigit && d1.isDigit && d2.isDigit then
      some (String.mk [y1, y2, y3, y4, '-', m1, m2, '-', d1, d2])
    else none
  | _ => none

/-- `s.replace("Z", "+00:00")` (line 197) on the character list. -/
def replaceZ (l : List Char) : List Char :=
  l.foldr
    (fun c acc =>
      if c = 'Z' then '+' :: '0' :: '0' :: ':' :: '0' :: '0' :: acc else c :: acc)
    []

/-- Days per month with the Gregorian leap rule, as validated by
`datetime.date`. -/
def daysInMonth (y m : Nat) : Nat :=
  if m = 2 then
    if y % 4 = 0 && (y % 100 != 0 || y % 400 = 0) then 29 else 28
  else if m = 4 || m = 6 || m = 9 || m = 11 then 30
  else 31

/-- `datetime.date` constructor validity: a genuine calendar date. -/
def validDate (y m d : Nat) : Bool :=
  1 ≤ y && y ≤ 9999 && 1 ≤ m && m ≤ 12 && 1 ≤ d && d ≤ daysInMonth y m

/-- Two decimal digits and the remaining input. -/
def twoDigits : List Char → Option (Nat × List Char)
  | a :: b :: rest =>
    if a.isDigit && b.isDigit then some (digitsToNat [a, b], rest) else none
  | _ => none

/-- Fractional-second tail of an ISO time: a dot then exactly three or
six digits. -/
def fracOk (l : List Char) : Option (List Char) :=
  match l with
  | '.' :: rest =>
    let ds := rest.takeWhile Char.isDigit
    if ds.length = 3 ∨ ds.length = 6 then some (rest.dropWhile Char.isDigit) else none
  | _ => none

/-- A UTC-offset tail `±HH:MM[:SS]` of an ISO time. -/
def offsetOk (l : List Char) : Bool :=
  match l with
  | c :: rest =>
    (c = '+' || c = '-') &&
      (match twoDigits rest with
       | some (_, ':' :: r2) =>
         match twoDigits r2 with
         | some (_, []) => true
         | some (_, ':' :: r3) =>
           match twoDigits r3 with
           | some (_, []) => true
           | _ => false
         | _ => false
       | _ => false)
  | [] => true

/-- The time component accepted by `datetime.fromisoformat` before
Python 3.11: `HH[:MM[:SS[.fff[fff]]]]` plus an optional offset. -/
def timeOk (l : List Char) : Bool :=
  match twoDigits l with
  | none => false
  | some (h, r1) =>
    h < 24 &&
      (match r1 with
       | [] => true
       | ':' :: r2 =>
         match twoDigits r2 with
         | none => false
         | some (mi, r3) =>
           mi < 60 &&
             (match r3 with
              | [] => true
              | ':' :: r4 =>
                match twoDigits r4 with
                | none => false
                | some (se, r5) =>
                  se < 60 &&
                    (match fracOk r5 with
                     | some r6 => offsetOk r6
                     | none => offsetOk r5)
              | rest => offsetOk rest)
       | rest => offsetOk rest)

/-- `datetime.fromisoformat(..).date()` under the pre-3.11 grammar: a
valid `YYYY-MM-DD`, optionally followed by a single separator character
and a valid time component. -/
def fromisoformat_date (l : List Char) : Option (Nat × Nat × Nat) :=
  match l with
  | y1 :: y2 :: y3 :: y4 :: '-' :: m1 :: m2 :: '-' :: d1 :: d2 :: rest =>
    if y1.isDigit && y2.isDigit && y3.isDigit && y4.isDigit &&
        m1.isDigit && m2.isDigit && d1.isDigit && d2.isDigit then
      let y := digitsToNat [y1, y2, y3, y4]
      let m := digitsToNat [m1, m2]
      let d := digitsToNat [d1, d2]
      if validDate y m d then
        match rest with
        | [] => some (y, m, d)
        | _sep :: t => if timeOk t then some (y, m, d) else none
      else none
    else none
  | _ => none

/-- Decimal representation of a natural number, left-padded with zeros. -/
def padNat (w n : Nat) : String :=
  let s := toString n
  String.mk (List.replicate (w - s.length) '0') ++ s

/-- `date.isoformat()`: `YYYY-MM-DD`, zero-padded. -/
def isoFormatDate (y m d : Nat) : String :=
  padNat 4 y ++ "-" ++ padNat 2 m ++ "-" ++ padNat 2 d

/-- `raw.get("date") or raw.get("draw_date") or raw.get("drawDate")`
(line 189). -/
def resolvedDate (raw : List (String × Json)) : Json :=
  pyOr (dget raw "date") (pyOr (dget raw "draw_date") (dget raw "drawDate"))

/-- The string branch of `date_iso` (lines 191-199): anchored
`YYYY-MM-DD` prefix, else `fromisoformat` after the `Z` replacement, else
the string passed through unchanged. -/
def strDateIso (s : String) : String :=
  match isoPrefixMatch s.data with
  | some d10 => d10
  | none =>
    match fromisoformat_date (replaceZ s.data) with
    | some (y, m, d) => isoFormatDate y m d
    | none => s

/-- The `date_iso` variable of `normalize_draw` (lines 190-201): a
non-string non-null value is `str()`-ed; a null stays `None`. -/
def dateIso (raw : List (String × Json)) : Option String :=
  match resolvedDate raw with
  | Json.null => none
  | Json.str s => some (strDateIso s)
  | v => some (pyStr v)

/-- `date_iso or "unknown"` (line 209): the sentinel replaces `None` and
the empty string only. -/
def finalDate : Option String → String
  | none => "unknown"
  | some s => if s = "" then "unknown" else s

/-- The normalized draw dict produced by `normalize_draw`
(lines 207-214). -/
structure NormDraw where
  id : Json
  date : String
  numbers : List Int
  stars : List Int
  jackpot_eur : Option Int
  raw : Json

/-- `normalize_draw` (lines 187-214). -/
def normalize_draw (raw : List (String × Json)) : NormDraw where
  id := pyOr (dget raw "id") (pyOr (dget raw "draw_id") (dget raw "drawId"))
  date := finalDate (dateIso raw)
  numbers := (as_numbers_list (pyOr (dget raw "numbers") (dget raw "numbers_main"))).take 5
  stars := (as_numbers_list (pyOr (dget raw "stars") (dget raw "lucky_stars"))).take 2
  jackpot_eur := extract_jackpot_eur raw
  raw := Json.obj raw

/-- `key_fn` of `sort_desc_by_date` (lines 218-226): the fully anchored
`^(\d{4})-(\d{2})-(\d{2})$` match as a numeric triple, `(0, 0, 0)` when
the date does not match. -/
def dateKey (s : String) : Nat × Nat × Nat :=
  match s.data with
  | [y1, y2, y3, y4, '-', m1, m2, '-', d1, d2] =>
    if y1.isDigit && y2.isDigit && y3.isDigit && y4.isDigit &&
        m1.isDigit && m2.isDigit && d1.isDigit && d2.isDigit then
      (digitsToNat [y1, y2, y3, y4], digitsToNat [m1, m2], digitsToNat [d1, d2])
    else (0, 0, 0)
  | _ => (0, 0, 0)

/-- Sort key of a normalized draw (`d.get("date") or ""` is the identity
here because a falsy date string and `""` share the non-matching key). -/
def key_fn (d : NormDraw) : Nat × Nat × Nat := dateKey d.date

/-- Lexicographic order on the key triples, as Python compares tuples. -/
def keyLe (a b : Nat × Nat × Nat) : Bool :=
  decide (a.1 < b.1 ∨ (a.1 = b.1 ∧ (a.2.1 < b.2.1 ∨ (a.2.1 = b.2.1 ∧ a.2.2 ≤ b.2.2))))

/-- Stable descending insertion: `x` goes in front of the first element
whose key is less than or equal to its own, so elements with equal keys
keep their input order.  `sorted(.., reverse=True)` is exactly the stable
descending sort, and a stable sort for a total preorder is unique. -/
def insertDesc (x : NormDraw) : List NormDraw → List NormDraw
  | [] => [x]
  | y :: ys => if keyLe (key_fn y) (key_fn x) then x :: y :: ys else y :: insertDesc x ys

/-- `sort_desc_by_date` (lines 217-227). -/
def sort_desc_by_date : List NormDraw → List NormDraw
  | [] => []
  | x :: xs => insertDesc x (sort_desc_by_date xs)

/-- Lower-cased strip of a unit word (`unit.strip().lower()`, line 233). -/
def lowerStrip (s : String) : String :=
  String.mk ((pyStrip s.data).map Char.toLower)

/-- `_multiplier_for_unit` (lines 230-240).  The falsiness test `not unit`
comes before the strip, so only `None` and the empty string short-circuit. -/
def multiplier_for_unit : Option String → Int
  | none => 1
  | some u =>
    if u = "" then 1
    else if lowerStrip u = "million" || lowerStrip u = "m" then 1000000
    else if lowerStrip u = "billion" || lowerStrip u = "b" then 1000000000
    else if lowerStrip u = "thousand" || lowerStrip u = "k" then 1000
    else 1

/-- `re.sub(r"\s+", " ", ..)` (line 249): collapse whitespace runs to a
single space.  The flag records whether the previous character was part
of a whitespace run. -/
def collapseWsAux : Bool → List Char → List Char
  | _, [] => []
  | prevSp, c :: cs =>
    if isPySpace c then
      if prevSp then collapseWsAux true cs else ' ' :: collapseWsAux true cs
    else c :: collapseWsAux false cs

def collapseWs (l : List Char) : List Char := collapseWsAux false l

/-- Case-insensitive literal prefix match (`re.IGNORECASE`), returning
the remaining input. -/
def stripPrefixCI : List Char → List Char → Option (List Char)
  | [], l => some l
  | _ :: _, [] => none
  | p :: ps, c :: cs => if c.toLower = p.toLower then stripPrefixCI ps cs else none

/-- The characters a matcher consumed, recovered from the remaining
input. -/
def consumed (orig rest : List Char) : List Char :=
  orig.take (orig.length - rest.length)

/-- The shared pattern tail `\s*Jackpot(?:\s*\*)?`: when no asterisk
follows, the optional group matches empty and the trailing whitespace is
left unconsumed. -/
def jackpotTail (r : List Char) : Option (List Char) :=
  match stripPrefixCI "jackpot".data (r.dropWhile isPySpace) with
  | none => none
  | some r2 =>
    match r2.dropWhile isPySpace with
    | '*' :: r4 => some r4
    | _ => some r2

/-- The unit alternatives of pattern 1 in the order the regex tries
them. -/
def unitAlts : List (List Char) :=
  ["million".data, "billion".data, "thousand".data, "m".data, "b".data, "k".data]

/-- Try each unit alternative in order; on a literal match the rest of
the pattern must also succeed, otherwise the next alternative is tried
(the only backtracking these patterns can need, since every other
character class is disjoint from what may follow it). -/
def p1TryUnits : List (List Char) → List Char → Option (List Char × List Char)
  | [], _ => none
  | alt :: alts, r =>
    match stripPrefixCI alt r with
    | some r6 =>
      (match jackpotTail r6 with
       | some r9 => some (consumed r r6, r9)
       | none => p1TryUnits alts r)
    | none => p1TryUnits alts r

/-- Pattern 1 of `parse_current_jackpot_from_html` (line 253),
`€\s*([\d]+(?:[.,]\d+)?)\s*(Million|Billion|Thousand|M|B|K)\s*Jackpot(?:\s*\*)?`,
anchored at the head of the input; the result is (whole match, number
group, unit group). -/
def matchP1At (l : List Char) : Option (List Char × List Char × List Char) :=
  match l with
  | '€' :: r1 =>
    let r2 := r1.dropWhile isPySpace
    let ds := r2.takeWhile Char.isDigit
    let r3 := r2.dropWhile Char.isDigit
    if ds = [] then none
    else
      let decState : List Char × List Char :=
        match r3 with
        | s :: rr =>
          if s = '.' ∨ s = ',' then
            let ds2 := rr.takeWhile Char.isDigit
            if ds2 = [] then ([], r3) else (s :: ds2, rr.dropWhile Char.isDigit)
          else ([], r3)
        | [] => ([], r3)
      let r5 := decState.2.dropWhile isPySpace
      match p1TryUnits unitAlts r5 with
      | some (unit, r9) => some (consumed l r9, ds ++ decState.1, unit)
      | none => none
  | _ => none

/-- `re.search` for pattern 1: the match at the leftmost feasible start
position. -/
def searchP1 : List Char → Option (List Char × List Char × List Char)
  | [] => none
  | c :: cs =>
    match matchP1At (c :: cs) with
    | some r => some r
    | none => searchP1 cs

/-- Pattern 2 (line 255), `€\s*([\d][\d.,]*)\s*Jackpot(?:\s*\*)?`,
anchored at the head; result is (whole match, number group). -/
def matchP2At (l : List Char) : Option (List Char × List Char) :=
  match l with
  | '€' :: r1 =>
    let r2 := r1.dropWhile isPySpace
    (match r2 with
     | c :: rr =>
       if c.isDigit then
         let run := rr.takeWhile (fun x => x.isDigit || x = '.' || x = ',')
         let r3 := rr.dropWhile (fun x => x.isDigit || x = '.' || x = ',')
         match jackpotTail r3 with
         | some r9 => some (consumed l r9, c :: run)
         | none => none
       else none
     | [] => none)
  | _ => none

def searchP2 : List Char → Option (List Char × List Char)
  | [] => none
  | c :: cs =>
    match matchP2At (c :: cs) with
    | some r => some r
    | none => searchP2 cs

/-- Pattern 3 (line 257), `Jackpot\s*€\s*([\d][\d.,]*)`, anchored at the
head; the whole match ends with the number run itself. -/
def matchP3At (l : List Char) : Option (List Char × List Char) :=
  match stripPrefixCI "jackpot".data l with
  | some r1 =>
    (match (r1.dropWhile isPySpace) with
     | '€' :: r3 =>
       let r4 := r3.dropWhile isPySpace
       (match r4 with
        | c :: rr =>
          if c.isDigit then
            let run := rr.takeWhile (fun x => x.isDigit || x = '.' || x = ',')
            let r5 := rr.dropWhile (fun x => x.isDigit || x = '.' || x = ',')
            some (consumed l r5, c :: run)
          else none
        | [] => none)
     | _ => none)
  | none => none

def searchP3 : List Char → Option (List Char × List Char)
  | [] => none
  | c :: cs =>
    match matchP3At (c :: cs) with
    | some r => some r
    | none => searchP3 cs

/-- Lines 264-268: remove commas from the number group, parse it as a
float, multiply by the unit multiplier and round. -/
def bannerEuros (g1 : List Char) (unit : Option String) : Option Int :=
  match pyFloatStr (g1.filter (fun c => c ≠ ',')) with
  | some v => some (pyRound (v.mulInt (multiplier_for_unit unit)))
  | none => none

/-- Pattern 1 attempt including the sanity floor (lines 269-271): a
parsed amount below one million falls through to the next pattern, as
does a failed float parse. -/
def tryPat1 (text : List Char) : Option (Int × List Char) :=
  match searchP1 text with
  | some (g0, g1, unit) =>
    (match bannerEuros g1 (some (String.mk unit)) with
     | some e => if 1000000 ≤ e then some (e, pyStrip g0) else none
     | none => none)
  | none => none

def tryPat2 (text : List Char) : Option (Int × List Char) :=
  match searchP2 text with
  | some (g0, g1) =>
    (match bannerEuros g1 none with
     | some e => if 1000000 ≤ e then some (e, pyStrip g0) else none
     | none => none)
  | none => none

def tryPat3 (text : List Char) : Option (Int × List Char) :=
  match searchP3 text with
  | some (g0, g1) =>
    (match bannerEuros g1 none with
     | some e => if 1000000 ≤ e then some (e, pyStrip g0) else none
     | none => none)
  | none => none

/-- The pattern loop of `parse_current_jackpot_from_html`: try the three
patterns in order; only the first match of each pattern is considered. -/
def parseJackpotText (text : List Char) : Option Int × Option String :=
  match tryPat1 text with
  | some (e, g) => (some e, some (String.mk g))
  | none =>
    match tryPat2 text with
    | some (e, g) => (some e, some (String.mk g))
    | none =>
      match tryPat3 text with
      | some (e, g) => (some e, some (String.mk g))
      | none => (none, none)

/-- `parse_current_jackpot_from_html` (lines 243-275): collapse
whitespace, then run the pattern loop. -/
def parse_current_jackpot_from_html (s : String) : Option Int × Option String :=
  parseJackpotText (collapseWs s.data)

/-- The two ways the history-building stage of `main` can abort: the
schema gate at lines 414-415 (`RuntimeError`), and the `AttributeError`
a non-dict record would raise inside `normalize_draw` (line 189). -/
inductive RunError where
  | schemaViolation : RunError
  | attributeError : RunError
deriving DecidableEq

/-- Lines 413-415 of `main`: the fetched payload must be a non-empty
list. -/
def api_payload_check : Json → Except RunError (List Json)
  | Json.arr xs => if xs.isEmpty then Except.error RunError.schemaViolation else Except.ok xs
  | _ => Except.error RunError.schemaViolation

/-- `normalize_draw(d)` on a loosely-typed record: a non-dict raises. -/
def normalize_draw_json : Json → Except RunError NormDraw
  | Json.obj kvs => Except.ok (normalize_draw kvs)
  | _ => Except.error RunError.attributeError

/-- The list comprehension `[normalize_draw(d) for d in api_raw]`
(line 417), stopping at the first raising record. -/
def mapNormalize : List Json → Except RunError (List NormDraw)
  | [] => Except.ok []
  | x :: xs =>
    match normalize_draw_json x with
    | Except.error e => Except.error e
    | Except.ok n =>
      match mapNormalize xs with
      | Except.error e => Except.error e
      | Except.ok ns => Except.ok (n :: ns)

/-- Normalization and sorting of the record list (lines 417-418). -/
def sortStage (xs : List Json) : Except RunError (List NormDraw) :=
  match mapNormalize xs with
  | Except.error e => Except.error e
  | Except.ok ns => Except.ok (sort_desc_by_date ns)

/-- Lines 413-418 of `main`: schema gate, per-record normalization, then
the descending sort.  The gate runs before any record is normalized. -/
def api_history_stage (j : Json) : Except RunError (List NormDraw) :=
  match api_payload_check j with
  | Except.error e => Except.error e
  | Except.ok xs => sortStage xs

/-- A draw as the Verifier of the spec compares it. -/
structure VDraw where
  date : String
  numbers : List Int
  stars : List Int
  jackpot : Option Int

/-- The VerificationReport of spec section 3: four field agreements plus
the aggregate. -/
structure VerificationReport where
  dateOk : Bool
  numbersOk : Bool
  starsOk : Bool
  jackpotOk : Bool
  allOk : Bool

/-- Modelled from the spec: the Verifier (spec section 4.5) has no
implementation under src/ — `main` writes a constant `"verified": True`
into latest.json (lines 456-470) and never compares a scraped draw
against the API-latest draw.  Following the spec text: field comparisons
are exact equality on date and the ordered numbers and stars sequences;
jackpot agreement is computed only when the API-side amount is present
and is reported false otherwise; the aggregate is date and numbers and
stars, jackpot excluded. -/
def verify (scraped apiLatest : VDraw) : VerificationReport :=
  let d := scraped.date == apiLatest.date
  let n := scraped.numbers == apiLatest.numbers
  let st := scraped.stars == apiLatest.stars
  let j :=
    match apiLatest.jackpot with
    | some a => scraped.jackpot == some a
    | none => false
  { dateOk := d, numbersOk := n, starsOk := st, jackpotOk := j, allOk := d && n && st }

/-- First case-insensitive occurrence of a phrase, returning the input
remaining after it. -/
def findCIAfter (pat : List Char) : List Char → Option (List Char)
  | [] => stripPrefixCI pat []
  | c :: cs =>
    match stripPrefixCI pat (c :: cs) with
    | some r => some r
    | none => findCIAfter pat cs

/-- The input up to (excluding) the first case-insensitive occurrence of
a phrase; all of it when the phrase is absent. -/
def takeUntilCI (pat : List Char) : List Char → List Char
  | [] => []
  | c :: cs =>
    match stripPrefixCI pat (c :: cs) with
    | some _ => []
    | none => c :: takeUntilCI pat cs

/-- Whitespace-separated tokens (accumulator holds the current token
reversed). -/
def wordsAux : List Char → List Char → List (List Char)
  | [], acc => if acc = [] then [] else [acc.reverse]
  | c :: cs, acc =>
    if isPySpace c then
      if acc = [] then wordsAux cs [] else acc.reverse :: wordsAux cs []
    else wordsAux cs (c :: acc)

def wordsOf (l : List Char) : List (List Char) := wordsAux l []

/-- A token that is exactly a one- or two-digit integer. -/
def isInt12 (w : List Char) : Bool :=
  (w.length = 1 || w.length = 2) && w.all Char.isDigit

/-- First currency amount: a euro sign followed (after optional spaces)
by digits and commas, read as an integer with the separators dropped. -/
def findEuroAmount : List Char → Option Nat
  | [] => none
  | c :: cs =>
    if c = '€' then
      let body := (cs.dropWhile isPySpace).takeWhile (fun x => x.isDigit || x = ',')
      let digits := body.filter Char.isDigit
      if digits = [] then findEuroAmount cs else some (digitsToNat digits)
    else findEuroAmount cs

/-- A `DD/MM/YY` token anchored at the head of the input. -/
def ddmmyyAt : List Char → Option (Nat × Nat × Nat)
  | d1 :: d2 :: '/' :: m1 :: m2 :: '/' :: y1 :: y2 :: _ =>
    if d1.isDigit && d2.isDigit && m1.isDigit && m2.isDigit && y1.isDigit && y2.isDigit then
      some (digitsToNat [d1, d2], digitsToNat [m1, m2], digitsToNat [y1, y2])
    else none
  | _ => none

/-- First embedded `DD/MM/YY` token. -/
def findDDMMYY : List Char → Option (Nat × Nat × Nat)
  | [] => none
  | c :: cs =>
    match ddmmyyAt (c :: cs) with
    | some r => some r
    | none => findDDMMYY cs

/-- The fatal extraction failures of spec section 4.3, each naming the
field that could not be resolved. -/
inductive ExtractionError where
  | anchorNotFound : ExtractionError
  | amountNotFound : ExtractionError
  | dateNotFound : ExtractionError
  | numbersNotFound : ExtractionError
  | starsNotFound : ExtractionError
deriving DecidableEq

/-- A fully populated scraped draw: date as (year, month, day), the five
winning numbers, the two lucky stars, the jackpot in euros. -/
structure SDraw where
  date : Nat × Nat × Nat
  numbers : List Nat
  stars : List Nat
  jackpot : Nat
deriving DecidableEq

/-- Modelled from the spec: the winning-number tokens, one- or two-digit
integer tokens after the "Winning numbers" anchor, stopping at five or at
the "Lucky Stars" boundary. -/
def winTokens (afterWin : List Char) : List Nat :=
  (((wordsOf (takeUntilCI "lucky stars".data afterWin)).filter isInt12).map digitsToNat).take 5

/-- Modelled from the spec: the two lucky-star tokens after the
"Lucky Stars" anchor. -/
def starTokens (afterStars : List Char) : List Nat :=
  (((wordsOf afterStars).filter isInt12).map digitsToNat).take 2

/-- Modelled from the spec: `extract_latest_draw` (spec section 4.3) has
no implementation under src/ — the script only scrapes the jackpot
banner (`parse_current_jackpot_from_html`) and takes date, numbers and
stars from the API.  Following the spec text over the flattened markup
text: locate the case-insensitive "Jackpot" anchor (absent is fatal);
take the nearest following euro amount (digits and commas after a euro
sign); parse the embedded `DD/MM/YY` date, adding 2000 to the two-digit
year, an invalid calendar date being a failure; collect the five
winning-number tokens and the two star tokens; any unresolved field is a
fatal error naming it, and a partially populated draw is never
returned. -/
def extractFromText (text : List Char) : Except ExtractionError SDraw :=
  match findCIAfter "jackpot".data text with
  | none => Except.error ExtractionError.anchorNotFound
  | some afterJackpot =>
    match findEuroAmount afterJackpot with
    | none => Except.error ExtractionError.amountNotFound
    | some jp =>
      match findDDMMYY text with
      | none => Except.error ExtractionError.dateNotFound
      | some (d, m, y2) =>
        if validDate (2000 + y2) m d then
          match findCIAfter "winning numbers".data text with
          | none => Except.error ExtractionError.numbersNotFound
          | some afterWin =>
            if (winTokens afterWin).length = 5 then
              match findCIAfter "lucky stars".data text with
              | none => Except.error ExtractionError.starsNotFound
              | some afterStars =>
                if (starTokens afterStars).length = 2 then
                  Except.ok
                    { date := (2000 + y2, m, d), numbers := winTokens afterWin,
                      stars := starTokens afterStars, jackpot := jp }
                else Except.error ExtractionError.starsNotFound
            else Except.error ExtractionError.numbersNotFound
        else Except.error ExtractionError.dateNotFound

def extract_latest_draw (markup : String) : Except ExtractionError SDraw :=
  extractFromText (collapseWs markup.data)

/-- The spec section 8 example record for the tier search. -/
def tierExampleRecord : List (String × Json) :=
  [("numbers", Json.str "01 02 03 04 05"),
   ("stars", Json.arr [Json.int 6, Json.int 7]),
   ("tiers", Json.arr
     [Json.obj
       [("matched_numbers", Json.int 5),
        ("matched_stars", Json.int 2),
        ("prize", Json.str "€10,000,000")]])]

/-- The spec section 8 end-to-end markup scenario. -/
def scenarioMarkup : String :=
  "Jackpot €40,000,000 * Tue 26/08/25 Winning numbers 3 17 22 29 44 Lucky Stars 6 9"

/-- The maximum-tracking step on already parsed prizes; `bestPrizeStep`
is this step precomposed with `tierPrize`. -/
def stepMax (best : Option Int) (p : Int) : Option Int :=
  match best with
  | none => some p
  | some b => if b < p then some p else some b

/-! Theorems. -/

theorem findFirstNum_isSome (l : List Char) :
    (findFirstNum l).isSome = l.any Char.isDigit := by
  induction l with
  | nil => rfl
  | cons c cs ih =>
    by_cases h : c.isDigit
    · simp [findFirstNum, h]
    · simp [findFirstNum, h, ih]

theorem any_digit_filter_comma (l : List Char) :
    (l.filter (fun c => c ≠ ',')).any Char.isDigit = l.any Char.isDigit := by
  induction l with
  | nil => rfl
  | cons c cs ih =>
    by_cases h : c = ','
    · subst h
      rw [List.filter_cons, if_neg (by simp), List.any_cons, ih]
      have hd : (','.isDigit) = false := rfl
      rw [hd, Bool.false_or]
    · rw [List.filter_cons, if_pos (by simp [h]), List.any_cons, List.any_cons, ih]

theorem finalDate_ne_empty (o : Option String) : finalDate o ≠ "" := by
  cases o with
  | none => decide
  | some s =>
    unfold finalDate
    by_cases h : s = ""
    · simp [h]
    · simp [h]

/-- C6 counterexample: with no unit word present, `_parse_euro_to_int`
does not strip every non-digit character and read the remaining digit
run (which would give 1234 on `"12 34"`); it parses only the first digit
run. -/
theorem amount_digit_run_counterexample :
    parse_euro_to_int (Json.str "12 34") = some 12 ∧ (12 : Int) ≠ 1234 :=
  ⟨by decide, by decide⟩

/-- C6 (amended): after removing commas the amount parser reads the
first digit run (with an optional fractional part, rounded); it succeeds
exactly when the input contains a digit, so `€26,800,624` gives 26800624
and a digit-free input is unparseable. -/
theorem amount_digit_run_amended :
    (∀ s : String,
        (parse_euro_to_int (Json.str s)).isSome = true ↔ s.data.any Char.isDigit = true)
  ∧ parse_euro_to_int (Json.str "€26,800,624") = some 26800624
  ∧ parse_euro_to_int (Json.str "not a number") = none := by
  refine ⟨?_, by decide, by decide⟩
  intro s
  rw [← any_digit_filter_comma s.data, ← findFirstNum_isSome]
  have heq : parse_euro_to_int (Json.str s)
      = match findFirstNum (s.data.filter (fun c => c ≠ ',')) with
        | some num => some (pyRound (ratOfNumChars num))
        | none => none := rfl
  rw [heq]
  cases findFirstNum (s.data.filter (fun c => c ≠ ',')) with
  | none => simp
  | some num => simp

theorem amount_digit_run_amended_witness :
    (parse_euro_to_int (Json.str "€7,5x")).isSome = true :=
  (amount_digit_run_amended.1 "€7,5x").mpr (by decide)

theorem tryPat1_floor {text : List Char} {e : Int} {g : List Char}
    (h : tryPat1 text = some (e, g)) : 1000000 ≤ e := by
  unfold tryPat1 at h
  split at h
  · split at h
    · split at h
      · next hfloor =>
        simp only [Option.some.injEq, Prod.mk.injEq] at h
        obtain ⟨he, -⟩ := h
        omega
      · exact absurd h (by simp)
    · exact absurd h (by simp)
  · exact absurd h (by simp)

theorem tryPat2_floor {text : List Char} {e : Int} {g : List Char}
    (h : tryPat2 text = some (e, g)) : 1000000 ≤ e := by
  unfold tryPat2 at h
  split at h
  · split at h
    · split at h
      · next hfloor =>
        simp only [Option.some.injEq, Prod.mk.injEq] at h
        obtain ⟨he, -⟩ := h
        omega
      · exact absurd h (by simp)
    · exact absurd h (by simp)
  · exact absurd h (by simp)

theorem tryPat3_floor {text : List Char} {e : Int} {g : List Char}
    (h : tryPat3 text = some (e, g)) : 1000000 ≤ e := by
  unfold tryPat3 at h
  split at h
  · split at h
    · split at h
      · next hfloor =>
        simp only [Option.some.injEq, Prod.mk.injEq] at h
        obtain ⟨he, -⟩ := h
        omega
      · exact absurd h (by simp)
    · exact absurd h (by simp)
  · exact absurd h (by simp)

/-- C9: whenever the banner scrape returns an amount it is at least one
million (each pattern returns only through the sanity-floor guard),
while the per-draw amount parser used for historical records applies no
floor and happily returns small amounts such as 5. -/
theorem banner_sanity_floor_spec :
    (∀ (s : String) (n : Int) (t : Option String),
        parse_current_jackpot_from_html s = (some n, t) → 1000000 ≤ n)
  ∧ parse_euro_to_int (Json.str "€5") = some 5 ∧ (5 : Int) < 1000000 := by
  refine ⟨?_, by decide, by decide⟩
  intro s n t h
  unfold parse_current_jackpot_from_html at h
  unfold parseJackpotText at h
  split at h
  · next h1 =>
    simp only [Prod.mk.injEq, Option.some.injEq] at h
    obtain ⟨he, -⟩ := h
    subst he
    exact tryPat1_floor h1
  · split at h
    · next h2 =>
      simp only [Prod.mk.injEq, Option.some.injEq] at h
      obtain ⟨he, -⟩ := h
      subst he
      exact tryPat2_floor h2
    · split at h
      · next h3 =>
        simp only [Prod.mk.injEq, Option.some.injEq] at h
        obtain ⟨he, -⟩ := h
        subst he
        exact tryPat3_floor h3
      · exact absurd h (by simp)

theorem banner_sanity_floor_spec_witness :
    (1000000 : Int) ≤ 40000000 :=
  banner_sanity_floor_spec.1 "€40 Million Jackpot *" 40000000
    (some "€40 Million Jackpot *") (by decide)

/-- C10: `normalize_draw` is total on dict inputs and always yields at
most five numbers, at most two stars, a non-empty date string, an
optional integer jackpot, and the unmodified raw record; a record
yielding fewer than five numbers is returned as a short list, not
rejected. -/
theorem normalize_draw_total_spec :
    (∀ raw : List (String × Json),
        (normalize_draw raw).numbers.length ≤ 5
      ∧ (normalize_draw raw).stars.length ≤ 2
      ∧ (normalize_draw raw).date ≠ ""
      ∧ ((normalize_draw raw).jackpot_eur = none ∨
          ∃ n : Int, (normalize_draw raw).jackpot_eur = some n)
      ∧ (normalize_draw raw).raw = Json.obj raw)
  ∧ (normalize_draw [("numbers", Json.str "01 02")]).numbers = [1, 2] := by
  refine ⟨?_, by decide⟩
  intro raw
  refine ⟨?_, ?_, ?_, ?_, rfl⟩
  · have h : (normalize_draw raw).numbers
        = (as_numbers_list (pyOr (dget raw "numbers") (dget raw "numbers_main"))).take 5 := rfl
    rw [h, List.length_take]
    exact Nat.min_le_left _ _
  · have h : (normalize_draw raw).stars
        = (as_numbers_list (pyOr (dget raw "stars") (dget raw "lucky_stars"))).take 2 := rfl
    rw [h, List.length_take]
    exact Nat.min_le_left _ _
  · exact finalDate_ne_empty (dateIso raw)
  · cases h : (normalize_draw raw).jackpot_eur with
    | none => exact Or.inl rfl
    | some n => exact Or.inr ⟨n, rfl⟩

theorem normalize_draw_total_spec_witness :
    (normalize_draw []).numbers.length ≤ 5
  ∧ (normalize_draw []).stars.length ≤ 2
  ∧ (normalize_draw []).date ≠ ""
  ∧ ((normalize_draw []).jackpot_eur = none ∨
      ∃ n : Int, (normalize_draw []).jackpot_eur = some n)
  ∧ (normalize_draw []).raw = Json.obj [] :=
  normalize_draw_total_spec.1 []

theorem keyLe_refl (a : Nat × Nat × Nat) : keyLe a a = true := by
  simp [keyLe]

theorem keyLe_trans {a b c : Nat × Nat × Nat}
    (h1 : keyLe a b = true) (h2 : keyLe b c = true) : keyLe a c = true := by
  simp only [keyLe, decide_eq_true_eq] at h1 h2 ⊢
  omega

theorem keyLe_of_not_keyLe {a b : Nat × Nat × Nat}
    (h : ¬keyLe a b = true) : keyLe b a = true := by
  simp only [keyLe, decide_eq_true_eq] at h ⊢
  omega

theorem mem_insertDesc {x z : NormDraw} {l : List NormDraw} :
    z ∈ insertDesc x l ↔ z = x ∨ z ∈ l := by
  induction l with
  | nil => simp [insertDesc]
  | cons y ys ih =>
    unfold insertDesc
    by_cases h : keyLe (key_fn y) (key_fn x) = true
    · rw [if_pos h]
      simp only [List.mem_cons]
    · rw [if_neg h]
      simp only [List.mem_cons, ih]
      tauto

theorem insertDesc_perm (x : NormDraw) (l : List NormDraw) :
    List.Perm (insertDesc x l) (x :: l) := by
  induction l with
  | nil => exact List.Perm.refl _
  | cons y ys ih =>
    unfold insertDesc
    by_cases h : keyLe (key_fn y) (key_fn x) = true
    · rw [if_pos h]
    · rw [if_neg h]
      exact (List.Perm.cons y ih).trans (List.Perm.swap x y ys)

theorem pairwise_insertDesc {x : NormDraw} {l : List NormDraw}
    (hl : List.Pairwise (fun a b => keyLe (key_fn b) (key_fn a) = true) l) :
    List.Pairwise (fun a b => keyLe (key_fn b) (key_fn a) = true) (insertDesc x l) := by
  induction l with
  | nil => simp [insertDesc]
  | cons y ys ih =>
    rcases List.pairwise_cons.mp hl with ⟨hy, hys⟩
    unfold insertDesc
    by_cases h : keyLe (key_fn y) (key_fn x) = true
    · rw [if_pos h]
      refine List.pairwise_cons.mpr ⟨?_, hl⟩
      intro z hz
      rcases List.mem_cons.mp hz with rfl | hz
      · exact h
      · exact keyLe_trans (hy z hz) h
    · rw [if_neg h]
      refine List.pairwise_cons.mpr ⟨?_, ih hys⟩
      intro z hz
      rcases mem_insertDesc.mp hz with rfl | hz
      · exact keyLe_of_not_keyLe h
      · exact hy z hz

theorem sort_desc_pairwise (l : List NormDraw) :
    List.Pairwise (fun a b => keyLe (key_fn b) (key_fn a) = true) (sort_desc_by_date l) := by
  induction l with
  | nil => exact List.Pairwise.nil
  | cons x xs ih => exact pairwise_insertDesc ih

theorem sort_desc_perm (l : List NormDraw) :
    List.Perm (sort_desc_by_date l) l := by
  induction l with
  | nil => exact List.Perm.refl _
  | cons x xs ih =>
    exact (insertDesc_perm x (sort_desc_by_date xs)).trans (List.Perm.cons x ih)

theorem filter_insertDesc_of_ne {x : NormDraw} {l : List NormDraw} {k : Nat × Nat × Nat}
    (h : (key_fn x == k) = false) :
    (insertDesc x l).filter (fun d => key_fn d == k) = l.filter (fun d => key_fn d == k) := by
  induction l with
  | nil => simp [insertDesc, List.filter_cons, h]
  | cons y ys ih =>
    unfold insertDesc
    by_cases hc : keyLe (key_fn y) (key_fn x) = true
    · rw [if_pos hc]
      simp [List.filter_cons, h]
    · rw [if_neg hc]
      rw [List.filter_cons, List.filter_cons, ih]

theorem filter_insertDesc_of_eq {x : NormDraw} {l : List NormDraw} {k : Nat × Nat × Nat}
    (h : (key_fn x == k) = true) :
    (insertDesc x l).filter (fun d => key_fn d == k)
      = x :: l.filter (fun d => key_fn d == k) := by
  induction l with
  | nil => simp [insertDesc, List.filter_cons, h]
  | cons y ys ih =>
    unfold insertDesc
    by_cases hc : keyLe (key_fn y) (key_fn x) = true
    · rw [if_pos hc]
      rw [List.filter_cons, if_pos h]
    · rw [if_neg hc]
      have hyk : (key_fn y == k) = false := by
        have hxk : key_fn x = k := by simpa using h
        by_contra hcon
        have hyt : (key_fn y == k) = true := by
          cases hv : (key_fn y == k) with
          | true => rfl
          | false => exact absurd hv hcon
        have hyx : key_fn y = key_fn x := by
          rw [hxk]
          simpa using hyt
        apply hc
        rw [hyx]
        exact keyLe_refl _
      simp [List.filter_cons, hyk, ih]

theorem sort_desc_filter_stable (l : List NormDraw) (k : Nat × Nat × Nat) :
    (sort_desc_by_date l).filter (fun d => key_fn d == k)
      = l.filter (fun d => key_fn d == k) := by
  induction l with
  | nil => rfl
  | cons x xs ih =>
    unfold sort_desc_by_date
    by_cases h : (key_fn x == k) = true
    · rw [filter_insertDesc_of_eq h, ih, List.filter_cons, if_pos h]
    · have hf : (key_fn x == k) = false := by
        cases hv : (key_fn x == k) with
        | true => exact absurd hv h
        | false => rfl
      rw [filter_insertDesc_of_ne hf, ih, List.filter_cons, if_neg h]

/-- C7: the produced history is sorted by the date key descending, is a
permutation of the input, keeps the relative input order of draws with
equal keys (stability, stated through filters), and puts a draw dated
2025-08-26 before one dated 2025-08-19. -/
theorem history_sort_desc_spec :
    (∀ l : List NormDraw,
        List.Pairwise (fun a b => keyLe (key_fn b) (key_fn a) = true) (sort_desc_by_date l))
  ∧ (∀ l : List NormDraw, List.Perm (sort_desc_by_date l) l)
  ∧ (∀ (l : List NormDraw) (k : Nat × Nat × Nat),
        (sort_desc_by_date l).filter (fun d => key_fn d == k)
          = l.filter (fun d => key_fn d == k))
  ∧ (sort_desc_by_date
        [normalize_draw [("date", Json.str "2025-08-19")],
         normalize_draw [("date", Json.str "2025-08-26")]]).map (fun d => d.date)
      = ["2025-08-26", "2025-08-19"] :=
  ⟨sort_desc_pairwise, sort_desc_perm, sort_desc_filter_stable, by decide⟩

theorem history_sort_desc_spec_witness :
    List.Perm (sort_desc_by_date [normalize_draw []]) [normalize_draw []] :=
  history_sort_desc_spec.2.1 [normalize_draw []]

theorem stepMax_eq_bestPrizeStep (acc : Option Int) (t : List (String × Json)) :
    bestPrizeStep acc t
      = match tierPrize t with
        | some p => stepMax acc p
        | none => acc := by
  unfold bestPrizeStep stepMax
  cases tierPrize t with
  | some p => cases acc <;> rfl
  | none => rfl

theorem bestFold_eq_listMax (ts : List (List (String × Json))) :
    ∀ acc : Option Int,
      ts.foldl bestPrizeStep acc = (ts.filterMap tierPrize).foldl stepMax acc := by
  induction ts with
  | nil => intro acc; rfl
  | cons t ts ih =>
    intro acc
    cases hp : tierPrize t with
    | none =>
      have hstep : bestPrizeStep acc t = acc := by
        rw [stepMax_eq_bestPrizeStep, hp]
      simp only [List.foldl_cons, List.filterMap_cons, hp]
      rw [hstep, ih]
    | some p =>
      have hstep : bestPrizeStep acc t = stepMax acc p := by
        rw [stepMax_eq_bestPrizeStep, hp]
      simp only [List.foldl_cons, List.filterMap_cons, hp]
      rw [hstep, ih]

theorem listMaxFold_spec (l : List Int) :
    ∀ (acc : Option Int) (j : Int), l.foldl stepMax acc = some j →
      (j ∈ l ∨ acc = some j)
      ∧ (∀ p ∈ l, p ≤ j)
      ∧ (∀ b : Int, acc = some b → b ≤ j) := by
  induction l with
  | nil =>
    intro acc j h
    simp only [List.foldl_nil] at h
    refine ⟨Or.inr h, by simp, ?_⟩
    intro b hb
    rw [h] at hb
    injection hb with e
    omega
  | cons p l ih =>
    intro acc j h
    rw [List.foldl_cons] at h
    obtain ⟨h1, h2, h3⟩ := ih (stepMax acc p) j h
    have hqle : ∀ b : Int, stepMax acc p = some b → p ≤ b := by
      intro b hb
      cases acc with
      | none =>
        simp only [stepMax] at hb
        injection hb with e
        omega
      | some b0 =>
        simp only [stepMax] at hb
        by_cases hlt : b0 < p
        · rw [if_pos hlt] at hb
          injection hb with e
          omega
        · rw [if_neg hlt] at hb
          injection hb with e
          omega
    have haccle : ∀ b0 b : Int, acc = some b0 → stepMax acc p = some b → b0 ≤ b := by
      intro b0 b h0 hb
      rw [h0] at hb
      simp only [stepMax] at hb
      by_cases hlt : b0 < p
      · rw [if_pos hlt] at hb
        injection hb with e
        omega
      · rw [if_neg hlt] at hb
        injection hb with e
        omega
    have hsome : ∃ b : Int, stepMax acc p = some b := by
      cases acc with
      | none => exact ⟨p, rfl⟩
      | some b0 =>
        by_cases hlt : b0 < p
        · exact ⟨p, by simp only [stepMax]; rw [if_pos hlt]⟩
        · exact ⟨b0, by simp only [stepMax]; rw [if_neg hlt]⟩
    obtain ⟨b, hb⟩ := hsome
    have hbj : b ≤ j := h3 b hb
    have hpj : p ≤ j := le_trans (hqle b hb) hbj
    refine ⟨?_, ?_, ?_⟩
    · rcases h1 with hm | hstep
      · exact Or.inl (List.mem_cons_of_mem p hm)
      · cases hacc : acc with
        | none =>
          rw [hacc] at hstep
          simp only [stepMax] at hstep
          injection hstep with e
          subst e
          exact Or.inl (List.mem_cons_self p l)
        | some b0 =>
          rw [hacc] at hstep
          simp only [stepMax] at hstep
          by_cases hlt : b0 < p
          · rw [if_pos hlt] at hstep
            injection hstep with e
            subst e
            exact Or.inl (List.mem_cons_self p l)
          · rw [if_neg hlt] at hstep
            injection hstep with e
            subst e
            exact Or.inr rfl
    · intro q hq
      rcases List.mem_cons.mp hq with rfl | hq
      · exact hpj
      · exact h2 q hq
    · intro b0 h0
      exact le_trans (haccle b0 b h0 hb) hbj

/-- C3: when no top-level jackpot key parses, the jackpot comes from the
recursive tier search; the search prefers the first collected tier with
five matched numbers and two matched stars and a parseable prize, and
otherwise returns the largest parsed prize across all collected tiers;
on the spec section 8 example record normalization yields
numbers 1..5, stars 6 and 7, and jackpot 10000000 through this search. -/
theorem jackpot_tier_search_spec :
    (∀ raw : List (String × Json),
        parse_euro_to_int (dget raw "jackpot") = none →
        parse_euro_to_int (dget raw "prize") = none →
        parse_euro_to_int (dget raw "jackpot_eur") = none →
        extract_jackpot_eur raw = extract_jackpot_from_tiers (Json.obj raw))
  ∧ (∀ (g : Json) (t : List (String × Json)),
        (collectTiers g).find? (fun u => isFullMatch u && (tierPrize u).isSome) = some t →
        extract_jackpot_from_tiers g = tierPrize t)
  ∧ (∀ (g : Json) (j : Int),
        (collectTiers g).find? (fun u => isFullMatch u && (tierPrize u).isSome) = none →
        extract_jackpot_from_tiers g = some j →
        j ∈ (collectTiers g).filterMap tierPrize
          ∧ ∀ p ∈ (collectTiers g).filterMap tierPrize, p ≤ j)
  ∧ (normalize_draw tierExampleRecord).numbers = [1, 2, 3, 4, 5]
  ∧ (normalize_draw tierExampleRecord).stars = [6, 7]
  ∧ (normalize_draw tierExampleRecord).jackpot_eur = some 10000000 := by
  refine ⟨?_, ?_, ?_, by decide, by decide, by decide⟩
  · intro raw h1 h2 h3
    unfold extract_jackpot_eur
    rw [h1, h2, h3]
  · intro g t hf
    unfold extract_jackpot_from_tiers
    rw [hf]
  · intro g j hf hj
    unfold extract_jackpot_from_tiers at hj
    rw [hf, bestFold_eq_listMax] at hj
    obtain ⟨h1, h2, h3⟩ := listMaxFold_spec _ none j hj
    rcases h1 with hm | habs
    · exact ⟨hm, h2⟩
    · exact absurd habs (by simp)

theorem jackpot_tier_search_spec_witness :
    extract_jackpot_from_tiers (Json.obj tierExampleRecord)
      = tierPrize
          [("matched_numbers", Json.int 5), ("matched_stars", Json.int 2),
           ("prize", Json.str "€10,000,000")] :=
  jackpot_tier_search_spec.2.1 (Json.obj tierExampleRecord)
    [("matched_numbers", Json.int 5), ("matched_stars", Json.int 2),
     ("prize", Json.str "€10,000,000")] (by rfl)

/-- C4 counterexample: a string date that cannot be normalized to a
calendar date is passed through unchanged by `normalize_draw`, not
replaced by the explicit "unknown" sentinel. -/
theorem normalize_date_sentinel_counterexample :
    (normalize_draw [("date", Json.str "not-a-date")]).date = "not-a-date"
  ∧ "not-a-date" ≠ "unknown" :=
  ⟨by decide, by decide⟩

/-- C4 (amended): the "unknown" sentinel is used exactly when the
resolved date value is null or the empty string; a non-empty string that
matches neither the anchored prefix nor the ISO grammar is passed
through unchanged; the batch is never aborted and every record yields an
output. -/
theorem normalize_date_sentinel_amended :
    (∀ raw : List (String × Json), resolvedDate raw = Json.null →
        (normalize_draw raw).date = "unknown")
  ∧ (∀ (raw : List (String × Json)) (s : String),
        resolvedDate raw = Json.str s →
        isoPrefixMatch s.data = none →
        fromisoformat_date (replaceZ s.data) = none →
        (normalize_draw raw).date = if s = "" then "unknown" else s)
  ∧ (∀ raws : List (List (String × Json)),
        (raws.map normalize_draw).length = raws.length) := by
  refine ⟨?_, ?_, ?_⟩
  · intro raw h
    have hdi : dateIso raw = none := by
      unfold dateIso
      rw [h]
    show finalDate (dateIso raw) = "unknown"
    rw [hdi]
    rfl
  · intro raw s h hp hf
    have hdi : dateIso raw = some (strDateIso s) := by
      unfold dateIso
      rw [h]
    have hs : strDateIso s = s := by
      unfold strDateIso
      rw [hp, hf]
    show finalDate (dateIso raw) = if s = "" then "unknown" else s
    rw [hdi, hs]
    rfl
  · intro raws
    exact List.length_map raws normalize_draw

theorem normalize_date_sentinel_amended_witness :
    (normalize_draw [("draw_date", Json.str "26/08/25")]).date
      = if ("26/08/25" : String) = "" then "unknown" else "26/08/25" :=
  normalize_date_sentinel_amended.2.1 [("draw_date", Json.str "26/08/25")]
    "26/08/25" rfl (by decide) (by decide)

/-- C5 counterexample: the general string amount parser ignores a
trailing unit word; it reads `€40 Million` as 40, not 40000000. -/
theorem amount_unit_multiplier_counterexample :
    parse_euro_to_int (Json.str "€40 Million") = some 40 ∧ (40 : Int) ≠ 40000000 :=
  ⟨by decide, by decide⟩

/-- C5 (amended): the unit-word multiplication (Million/Billion/Thousand
and the one-letter abbreviations, case-insensitive and stripped, with
multiplier one for an absent, empty or unrecognized unit) is applied
only inside the banner parser, where the matched number times the unit
multiplier is rounded to euros; the banner parse of
`€40 Million Jackpot *` yields 40000000. -/
theorem amount_unit_multiplier_amended :
    multiplier_for_unit (some "Million") = 1000000
  ∧ multiplier_for_unit (some "million") = 1000000
  ∧ multiplier_for_unit (some "M") = 1000000
  ∧ multiplier_for_unit (some "Billion") = 1000000000
  ∧ multiplier_for_unit (some "b") = 1000000000
  ∧ multiplier_for_unit (some "Thousand") = 1000
  ∧ multiplier_for_unit (some " K ") = 1000
  ∧ multiplier_for_unit none = 1
  ∧ (∀ u : String, u ≠ "" →
        lowerStrip u ∉ (["million", "m", "billion", "b", "thousand", "k"] : List String) →
        multiplier_for_unit (some u) = 1)
  ∧ (∀ (g1 : List Char) (u : Option String) (v : PyFloat),
        pyFloatStr (g1.filter (fun c => c ≠ ',')) = some v →
        bannerEuros g1 u = some (pyRound (v.mulInt (multiplier_for_unit u))))
  ∧ parse_current_jackpot_from_html "€40 Million Jackpot *"
      = (some 40000000, some "€40 Million Jackpot *") := by
  refine ⟨by decide, by decide, by decide, by decide, by decide, by decide, by decide,
    rfl, ?_, ?_, by decide⟩
  · intro u hne hnotin
    simp only [multiplier_for_unit]
    rw [if_neg hne]
    by_cases h1 : (lowerStrip u = "million" || lowerStrip u = "m") = true
    · exfalso
      apply hnotin
      simp only [Bool.or_eq_true, decide_eq_true_eq] at h1
      rcases h1 with h | h <;> simp [h]
    · rw [if_neg h1]
      by_cases h2 : (lowerStrip u = "billion" || lowerStrip u = "b") = true
      · exfalso
        apply hnotin
        simp only [Bool.or_eq_true, decide_eq_true_eq] at h2
        rcases h2 with h | h <;> simp [h]
      · rw [if_neg h2]
        by_cases h3 : (lowerStrip u = "thousand" || lowerStrip u = "k") = true
        · exfalso
          apply hnotin
          simp only [Bool.or_eq_true, decide_eq_true_eq] at h3
          rcases h3 with h | h <;> simp [h]
        · rw [if_neg h3]
  · intro g1 u v hv
    unfold bannerEuros
    rw [hv]

theorem amount_unit_multiplier_amended_witness :
    multiplier_for_unit (some "Foo") = 1 :=
  amount_unit_multiplier_amended.2.2.2.2.2.2.2.2.1 "Foo" (by decide) (by decide)

theorem normalize_draw_json_ne_schema (x : Json) :
    normalize_draw_json x ≠ Except.error RunError.schemaViolation := by
  cases x <;> simp [normalize_draw_json]

theorem mapNormalize_ne_schema (xs : List Json) :
    mapNormalize xs ≠ Except.error RunError.schemaViolation := by
  induction xs with
  | nil => simp [mapNormalize]
  | cons x xs ih =>
    unfold mapNormalize
    cases hx : normalize_draw_json x with
    | error e =>
      intro hcon
      injection hcon with he
      subst he
      exact normalize_draw_json_ne_schema x hx
    | ok n =>
      cases hm : mapNormalize xs with
      | error e =>
        intro hcon
        injection hcon with he
        subst he
        exact ih hm
      | ok ns => simp

theorem sortStage_ne_schema (xs : List Json) :
    sortStage xs ≠ Except.error RunError.schemaViolation := by
  unfold sortStage
  cases hm : mapNormalize xs with
  | error e =>
    intro hcon
    injection hcon with he
    subst he
    exact mapNormalize_ne_schema xs hm
  | ok ns => simp

/-- C8: the history stage raises the schema violation exactly when the
payload is not a non-empty list (before any record is normalized); a
non-empty list always passes the gate. -/
theorem api_schema_gate_spec :
    (∀ j : Json,
        api_history_stage j = Except.error RunError.schemaViolation ↔
          ∀ xs : List Json, j = Json.arr xs → xs = [])
  ∧ (∀ xs : List Json, xs ≠ [] → api_payload_check (Json.arr xs) = Except.ok xs) := by
  have hcheck : ∀ xs : List Json, xs ≠ [] → api_payload_check (Json.arr xs) = Except.ok xs := by
    intro xs hne
    have hf : xs.isEmpty = false := by
      cases xs with
      | nil => exact absurd rfl hne
      | cons a l => rfl
    simp [api_payload_check, hf]
  refine ⟨?_, hcheck⟩
  intro j
  constructor
  · intro h xs hj
    subst hj
    by_contra hne
    unfold api_history_stage at h
    rw [hcheck xs hne] at h
    have h2 : sortStage xs = Except.error RunError.schemaViolation := h
    exact sortStage_ne_schema xs h2
  · intro hall
    cases j with
    | arr xs =>
      have hx : xs = [] := hall xs rfl
      subst hx
      rfl
    | null => rfl
    | bool b => rfl
    | int n => rfl
    | float q => rfl
    | str s => rfl
    | obj kvs => rfl

theorem api_schema_gate_spec_witness :
    api_history_stage (Json.arr []) = Except.error RunError.schemaViolation
  ∧ api_payload_check (Json.arr [Json.null]) = Except.ok [Json.null] :=
  ⟨(api_schema_gate_spec.1 (Json.arr [])).mpr
      (by
        intro xs hx
        injection hx with h
        exact h.symm),
   api_schema_gate_spec.2 [Json.null] (List.cons_ne_nil _ _)⟩

/-- C1: the aggregate agreement of the verification report holds exactly
when date, ordered numbers and ordered stars are all equal; the jackpot
fields play no role in it, so identical draws agree regardless of
jackpot presence and one differing number in matching position breaks
the aggregate. -/
theorem verifier_aggregate_spec :
    (∀ s a : VDraw, (verify s a).allOk = true ↔
        s.date = a.date ∧ s.numbers = a.numbers ∧ s.stars = a.stars)
  ∧ (verify (VDraw.mk "2025-08-26" [3, 17, 22, 29, 44] [6, 9] (some 40000000))
        (VDraw.mk "2025-08-26" [3, 17, 22, 29, 44] [6, 9] none)).allOk = true
  ∧ (verify (VDraw.mk "2025-08-26" [3, 17, 22, 29, 44] [6, 9] none)
        (VDraw.mk "2025-08-26" [3, 17, 22, 30, 44] [6, 9] none)).allOk = false := by
  refine ⟨?_, by decide, by decide⟩
  intro s a
  simp [verify, Bool.and_eq_true, and_assoc]

theorem verifier_aggregate_spec_witness :
    (verify (VDraw.mk "d" [1] [2] none) (VDraw.mk "d" [1] [2] (some 5))).allOk = true :=
  (verifier_aggregate_spec.1 (VDraw.mk "d" [1] [2] none)
    (VDraw.mk "d" [1] [2] (some 5))).mpr ⟨rfl, rfl, rfl⟩

/-- C2: on the spec section 8 scenario markup the modelled extractor
returns the fully populated draw (date 2025-08-26, the five numbers, the
two stars, jackpot 40000000); and every successful extraction carries
exactly five numbers and two stars, so a partially populated draw is
never returned (a failure is an `ExtractionError` naming the field). -/
theorem extract_latest_draw_spec :
    extract_latest_draw scenarioMarkup
      = Except.ok (SDraw.mk (2025, 8, 26) [3, 17, 22, 29, 44] [6, 9] 40000000)
  ∧ (∀ (m : String) (d : SDraw), extract_latest_draw m = Except.ok d →
        d.numbers.length = 5 ∧ d.stars.length = 2) := by
  refine ⟨by rfl, ?_⟩
  intro m d h
  unfold extract_latest_draw at h
  unfold extractFromText at h
  split at h
  · exact Except.noConfusion h
  · split at h
    · exact Except.noConfusion h
    · split at h
      · exact Except.noConfusion h
      · split at h
        · split at h
          · exact Except.noConfusion h
          · split at h
            · split at h
              · exact Except.noConfusion h
              · split at h
                · injection h with hd
                  subst hd
                  exact ⟨by assumption, by assumption⟩
                · exact Except.noConfusion h
            · exact Except.noConfusion h
        · exact Except.noConfusion h

theorem extract_latest_draw_spec_witness :
    (SDraw.mk (2025, 8, 26) [3, 17, 22, 29, 44] [6, 9] 40000000).numbers.length = 5
  ∧ (SDraw.mk (2025, 8, 26) [3, 17, 22, 29, 44] [6, 9] 40000000).stars.length = 2 :=
  extract_latest_draw_spec.2 scenarioMarkup
    (SDraw.mk (2025, 8, 26) [3, 17, 22, 29, 44] [6, 9] 40000000)
    extract_latest_draw_spec.1
